import Mathlib

/-!
Verification development for the tenant-resolution core of the
django-site-multitenancy package.

The development shallowly embeds the data model and the algorithms of
multitenancy/middleware.py, multitenancy/managers.py,
multitenancy/models/tenant.py, multitenancy/models/auth.py and
multitenancy/backends.py.  Django's ORM is modelled by explicit list-valued
stores; `QuerySet.get` becomes `pyGet`; the process-wide `TENANT_CACHE`
dictionary becomes an association list keyed by either a primary key or a
domain string.  Exceptions raised by the Python code are modelled by the
`PyErr` error type threaded through `Except`.  The thread-local
"current request/tenant" lookup is modelled as an explicitly passed
`Option` value, following the package's own description of that mechanism.

Two behaviours of the source are modelled exactly as written even though
they are arguably slips: `Tenant.clean_fields` builds its error message from
a nonexistent `root.hostname` attribute (an `AttributeError`), and
`clear_tenant_cache` reads a nonexistent `Tenant.domain` attribute (again an
`AttributeError`) while only `KeyError` and `Tenant.DoesNotExist` are caught.
-/

namespace Multitenancy

/-- Errors raised by the embedded Python code.  `missingHost` models the
package's `MissingHostException` (its module is referenced by the source but
the class is just a bare `Exception` subclass); `doesNotExist` and
`multipleObjectsReturned` model the Django ORM exceptions raised by
`QuerySet.get`; `attributeError` models a Python `AttributeError` from
accessing an attribute that does not exist; `valueError` models Python's
`ValueError` (bad tuple unpacking, explicit raises in the managers). -/
inductive PyErr where
  | missingHost
  | doesNotExist
  | multipleObjectsReturned
  | attributeError
  | valueError
  deriving DecidableEq, Repr

deriving instance DecidableEq for Except

/-- Django `QuerySet.get` semantics: exactly one row is returned; zero rows
raise `DoesNotExist`; more than one raises `MultipleObjectsReturned`. -/
def pyGet {α : Type} : List α → Except PyErr α
  | [] => .error .doesNotExist
  | [x] => .ok x
  | _ :: _ :: _ => .error .multipleObjectsReturned

/-- Python `str.lower` on one character (ASCII case mapping). -/
def pyLowerChar (c : Char) : Char :=
  if h : 65 ≤ c.toNat ∧ c.toNat ≤ 90 then
    Char.ofNatAux (c.toNat + 32)
      (Or.inl (by omega))
  else c

/-- Python `str.lower` (ASCII case mapping, as exercised by domain names). -/
def pyLower (s : String) : String :=
  String.mk (s.data.map pyLowerChar)

/-- Prepend a character onto the first piece of a split result. -/
def consHead (c : Char) : List (List Char) → List (List Char)
  | [] => [[c]]
  | h :: t => (c :: h) :: t

/-- Python `str.split(sep)`: splits at every occurrence of `sep`, keeping
empty pieces, and always returns at least one piece. -/
def pySplit (sep : Char) : List Char → List (List Char)
  | [] => [[]]
  | c :: rest =>
    if c = sep then [] :: pySplit sep rest
    else consHead c (pySplit sep rest)

/-- Split a character list at the first occurrence of `sep` (which is
dropped); `none` when `sep` does not occur. -/
def splitAtFirst (sep : Char) : List Char → Option (List Char × List Char)
  | [] => none
  | c :: rest =>
    if c = sep then some ([], rest)
    else
      match splitAtFirst sep rest with
      | none => none
      | some (a, b) => some (c :: a, b)

/-- Split a character list at the last occurrence of `sep` (which is
dropped); `none` when `sep` does not occur.  Models `str.rsplit(sep, 1)`. -/
def splitAtLast (sep : Char) : List Char → Option (List Char × List Char)
  | [] => none
  | c :: rest =>
    match splitAtLast sep rest with
    | some (a, b) => some (c :: a, b)
    | none => if c = sep then some ([], rest) else none

theorem toNat_ofNatAux (n : Nat) (h : n.isValidChar) : (Char.ofNatAux n h).toNat = n := rfl

theorem pyLowerChar_eq_self {c : Char} (h : ¬(65 ≤ c.toNat ∧ c.toNat ≤ 90)) :
    pyLowerChar c = c := by
  unfold pyLowerChar
  simp only [dif_neg h]

theorem pyLowerChar_idem (c : Char) : pyLowerChar (pyLowerChar c) = pyLowerChar c := by
  by_cases h : 65 ≤ c.toNat ∧ c.toNat ≤ 90
  · have h1 : pyLowerChar c = Char.ofNatAux (c.toNat + 32) (Or.inl (by omega)) := by
      unfold pyLowerChar
      simp only [dif_pos h]
    rw [h1]
    apply pyLowerChar_eq_self
    rw [toNat_ofNatAux]
    omega
  · rw [pyLowerChar_eq_self h, pyLowerChar_eq_self h]

theorem pyLower_idem (s : String) : pyLower (pyLower s) = pyLower s := by
  unfold pyLower
  have h : pyLowerChar ∘ pyLowerChar = pyLowerChar := funext fun c => pyLowerChar_idem c
  rw [List.map_map, h]

/-- ASCII alphanumeric (the character class of the domain-name validator in
multitenancy/validators.py). -/
def isAlnumAscii (c : Char) : Bool :=
  (97 ≤ c.toNat && c.toNat ≤ 122) || (65 ≤ c.toNat && c.toNat ≤ 90) ||
    (48 ≤ c.toNat && c.toNat ≤ 57)

/-- Character class `[a-z0-9.-]` of Django's `host_validation_re`
(`46` is the dot, `45` the hyphen). -/
def isHostBodyChar (c : Char) : Bool :=
  (97 ≤ c.toNat && c.toNat ≤ 122) || (48 ≤ c.toNat && c.toNat ≤ 57) ||
    c.toNat = 46 || c.toNat = 45

/-- Characters the package's domain-name validator regex admits: ASCII
alphanumerics, dots and hyphens. -/
def specValidDomainChar (c : Char) : Bool :=
  isAlnumAscii c || c.toNat = 46 || c.toNat = 45

/-- Character class `[0-9]`. -/
def isDigitAscii (c : Char) : Bool :=
  48 ≤ c.toNat && c.toNat ≤ 57

/-- Character class `[a-f0-9]` (IPv6 hex digits). -/
def isHexAscii (c : Char) : Bool :=
  (97 ≤ c.toNat && c.toNat ≤ 102) || (48 ≤ c.toNat && c.toNat ≤ 57)

/-- Character class `[a-f0-9.:]` (IPv6 body after the first colon). -/
def isIpv6TailChar (c : Char) : Bool :=
  isHexAscii c || c.toNat = 46 || c.toNat = 58

/-- Matches `[a-f0-9]*:[a-f0-9.:]+` exactly (body of the bracketed IPv6
alternative of Django's `host_validation_re`). -/
def ipv6Body (s : List Char) : Bool :=
  match splitAtFirst ':' s with
  | some (p, q) => p.all isHexAscii && !q.isEmpty && q.all isIpv6TailChar
  | none => false

/-- Django's `host_validation_re`, i.e.
`^([a-z0-9.-]+|\x5b[a-f0-9]*:[a-f0-9.:]+\x5d)(:\d+)?$`, as a decision
procedure on an (already lower-cased) host. -/
def hostReMatch (s : List Char) : Bool :=
  (match splitAtFirst ':' s with
   | none => !s.isEmpty && s.all isHostBodyChar
   | some (a, b) =>
     !a.isEmpty && a.all isHostBodyChar && !b.isEmpty && b.all isDigitAscii &&
       !b.contains ':') ||
  (match s with
   | '[' :: rest =>
     match splitAtFirst ']' rest with
     | some (x, tail) =>
       ipv6Body x &&
         (match tail with
          | [] => true
          | ':' :: ds => !ds.isEmpty && ds.all isDigitAscii
          | _ => false)
     | none => false
   | _ => false)

/-- Models `domain[:-1] if domain.endswith('.') else domain`. -/
def dropTrailingDot (s : String) : String :=
  if s.data.getLast? = some '.' then String.mk s.data.dropLast else s

/-- Django's `django.http.request.split_domain_port`: lower-case the host,
reject it wholesale (returning two empty strings) unless it matches
`host_validation_re`, keep a bracketed IPv6 literal intact, otherwise split
off the part after the last colon as the port and strip one trailing dot
from the domain. -/
def splitDomainPort (host : String) : String × String :=
  if ¬hostReMatch (pyLower host).data then ("", "")
  else if (pyLower host).data.getLast? = some ']' then (pyLower host, "")
  else
    match splitAtLast ':' (pyLower host).data with
    | some (a, b) => (dropTrailingDot (String.mk a), String.mk b)
    | none => (dropTrailingDot (pyLower host), "")

/-- Percent-encode one byte as `%XX`. -/
def percentByte (n : Nat) : List Char :=
  let hexDigit (k : Nat) : Char :=
    if k < 10 then Char.ofNat (48 + k) else Char.ofNat (55 + k)
  ['%', hexDigit (n / 16 % 16), hexDigit (n % 16)]

/-- UTF-8 bytes of a character (standard four-range encoding). -/
def utf8Bytes (c : Char) : List Nat :=
  let n := c.toNat
  if n < 0x80 then [n]
  else if n < 0x800 then [0xC0 + n / 64, 0x80 + n % 64]
  else if n < 0x10000 then [0xE0 + n / 4096, 0x80 + n / 64 % 64, 0x80 + n % 64]
  else [0xF0 + n / 262144, 0x80 + n / 4096 % 64, 0x80 + n / 64 % 64, 0x80 + n % 64]

/-- Models `urllib.parse.quote` on one character: unreserved ASCII characters pass
through, everything else is percent-encoded byte-wise. -/
def quoteChar (c : Char) : List Char :=
  if isAlnumAscii c || c = '_' || c = '.' || c = '-' || c = '~' then [c]
  else (utf8Bytes c).flatMap percentByte

/-- Models `urllib.parse.quote` with the default safe set restricted to the
unreserved characters (what `django.utils.http.urlencode` applies to keys
and values). -/
def pyQuote (s : String) : String :=
  String.mk (s.data.flatMap quoteChar)

/-- Models `django.utils.http.urlencode` over an ordered list of key/value query
parameters (`doseq` plays no role for scalar values). -/
def urlencodeSeq (q : List (String × String)) : String :=
  String.intercalate "&" (q.map fun kv => pyQuote kv.1 ++ "=" ++ pyQuote kv.2)

/-- The `django.contrib.sites` `Site` row a `Tenant` points at through its
`site` one-to-one field: a primary key, the canonical `domain` and the
human-readable `name`. -/
structure SiteRec where
  pk : Nat
  domain : String
  name : String
  deriving DecidableEq, Repr

/-- Model of `multitenancy.models.tenant.Tenant`: a one-to-one `site` reference, the
nullable `preferred_domain` character field and the `is_root_site` flag
(timestamps are irrelevant to the verified behaviour). -/
structure Tenant where
  pk : Nat
  site : SiteRec
  preferredDomain : Option String
  isRootSite : Bool
  deriving DecidableEq, Repr

/-- Model of `multitenancy.models.tenant.SiteAlias`: a unique alias `domain` owned by
one tenant through a cascading foreign key. -/
structure SiteAlias where
  pk : Nat
  domain : String
  tenantPk : Nat
  deriving DecidableEq, Repr

/-- The durable tenant store: the `Tenant` rows (each carrying its `Site`
row) and the `SiteAlias` rows. -/
structure Store where
  tenants : List Tenant
  aliases : List SiteAlias
  deriving DecidableEq, Repr

/-- Keys of the process-wide `TENANT_CACHE` dictionary in
multitenancy/managers.py: the same dict is indexed both by tenant primary
keys (`_get_tenant_by_id`) and by domain strings (`_get_tenant_by_request`). -/
inductive CacheKey where
  | pk (n : Nat)
  | domain (d : String)
  deriving DecidableEq, Repr

/-- The `TENANT_CACHE` dictionary. -/
def Cache : Type := List (CacheKey × Tenant)

instance : DecidableEq Cache := fun a b => List.hasDecEq a b

/-- Dictionary lookup. -/
def cacheLookup (c : Cache) (k : CacheKey) : Option Tenant :=
  (c.find? fun kv => kv.1 = k).map Prod.snd

/-- Models `del TENANT_CACHE[k]` with a swallowed `KeyError`. -/
def cacheDel (c : Cache) (k : CacheKey) : Cache :=
  c.filter fun kv => kv.1 ≠ k

/-- Models `TENANT_CACHE[k] = t`. -/
def cacheInsert (c : Cache) (k : CacheKey) (t : Tenant) : Cache :=
  (k, t) :: cacheDel c k

/-- Model of `Tenant.public_domain`: the `preferred_domain` if it is truthy (neither
`None` nor the empty string), else the canonical `site.domain`; this is the
Python expression `self.preferred_domain or self.site.domain`. -/
def publicDomain (t : Tenant) : String :=
  match t.preferredDomain with
  | some p => if p = "" then t.site.domain else p
  | none => t.site.domain

/-- An incoming HTTP request as the middleware and managers read it: the
optional `HTTP_HOST` header, the path, whether the transport is TLS, and the
ordered `GET` query parameters. -/
structure Request where
  httpHost : Option String
  path : String
  isSecure : Bool
  GET : List (String × String)
  deriving DecidableEq, Repr

/-- A request with the given host header and neutral remaining fields, for
stating resolution-only properties. -/
def hostReq (h : String) : Request :=
  { httpHost := some h, path := "/", isSecure := true, GET := [] }

/-- The match kind returned by `match_site_to_request`: the code returns the
literal strings `'domain'` (canonical-hostname match) and `'alias'`. -/
inductive MatchType where
  | domain
  | alias
  deriving DecidableEq, Repr

/-- Lines 40-41 of multitenancy/middleware.py:
`if ':' in hostname: hostname, _ = hostname.split(':')` — the two-element
tuple unpacking raises `ValueError` when the host contains more than one
colon. -/
def stripPort (host : String) : Except PyErr String :=
  if ':' ∈ host.data then
    match pySplit ':' host.data with
    | [a, _] => .ok (String.mk a)
    | _ => .error .valueError
  else .ok host

/-- Rows produced by the middleware's alias lookup
`query.get(site__alias_set__domain=hostname)`: one joined row per alias row
whose domain equals the (exact, case-sensitive) hostname, resolved to the
owning tenant. -/
def aliasJoinRows (db : Store) (hostname : String) : List Tenant :=
  (db.aliases.filter fun al => al.domain = hostname).filterMap
    fun al => db.tenants.find? fun t => t.pk = al.tenantPk

/-- Model of `multitenancy.middleware.match_site_to_request`: raise
`MissingHostException` when no `HTTP_HOST` header is present, strip an
optional `:port` suffix, then `get` by exact canonical domain; only on
`DoesNotExist` fall back to a `get` through the alias join.  Any
`MultipleObjectsReturned` from the first `get` propagates. -/
def matchSiteToRequest (db : Store) (req : Request) :
    Except PyErr (MatchType × Tenant) :=
  match req.httpHost with
  | none => .error .missingHost
  | some host =>
    match stripPort host with
    | .error e => .error e
    | .ok hostname =>
      match pyGet (db.tenants.filter fun t => t.site.domain = hostname) with
      | .ok t => .ok (.domain, t)
      | .error .doesNotExist =>
        (pyGet (aliasJoinRows db hostname)).map fun t => (.alias, t)
      | .error e => .error e

/-- The per-request outcome of `SiteSelectingMiddleware.process_request`:
forward to the downstream handlers with `request.site` set and the path
unchanged, return a redirect response, return the 400 response for a
missing host, raise `Http404`, or let some other exception escape. -/
inductive Outcome where
  | forward (site : Tenant) (path : String)
  | redirect (url : String)
  | badRequest
  | notFound
  | serverError (e : PyErr)
  deriving DecidableEq, Repr

/-- Model of `SiteSelectingMiddleware.process_request` (multitenancy/middleware.py
lines 54-90): resolve the site, mapping `Site.DoesNotExist` to `Http404`
and `MissingHostException` to a 400 response; then, for `/admin/` paths
reached insecurely or through an alias other than the preferred domain,
redirect to `https://{site.public_domain}{path}` carrying the url-encoded
`GET` parameters; otherwise the request proceeds with the site attached. -/
def processRequest (db : Store) (req : Request) : Outcome :=
  match matchSiteToRequest db req with
  | .error .doesNotExist => .notFound
  | .error .missingHost => .badRequest
  | .error e => .serverError e
  | .ok (matchType, site) =>
    match req.httpHost with
    | none => .serverError .missingHost
    | some host =>
      if List.isPrefixOf "/admin/".data req.path.data ∧
          (req.isSecure = false ∨
            (matchType = .alias ∧
              site.preferredDomain ≠ some (splitDomainPort host).1)) then
        .redirect ("https://" ++ publicDomain site ++ req.path ++
          (if req.GET = [] then "" else "?" ++ urlencodeSeq req.GET))
      else
        .forward site req.path

/-- Case-insensitive Django `__iexact` comparison. -/
def iexact (a b : String) : Bool :=
  pyLower a = pyLower b

/-- Rows of the manager query
`self.get(Q(site__domain__iexact=domain) | Q(aliases__domain__iexact=domain))`
(multitenancy/managers.py lines 62-64): the OR across the reverse
foreign-key join yields one row per alias of a tenant whenever the tenant
has aliases, and a single row for an alias-less tenant. -/
def tenantRows (db : Store) (domain : String) : List Tenant :=
  db.tenants.flatMap fun t =>
    let als := db.aliases.filter fun al => al.tenantPk = t.pk
    if als.isEmpty then
      if iexact t.site.domain domain then [t] else []
    else
      als.filterMap fun al =>
        if iexact t.site.domain domain || iexact al.domain domain then some t
        else none

/-- What `TenantManager._get_tenant_by_request` hands back to its caller:
either a tenant or — when the host header is missing — an
`HttpResponseBadRequest` object returned in the tenant's place. -/
inductive TenantOrResponse where
  | tenant (t : Tenant)
  | badRequestResponse
  deriving DecidableEq, Repr

/-- Model of `TenantManager._get_tenant_by_request` (multitenancy/managers.py lines
47-65): return a 400 response object when the host header is missing; run
`split_domain_port` only when the host contains a colon; consult
`TENANT_CACHE` under the resulting domain string and on a miss run the
`__iexact` OR-query, caching a successful result under that same key. -/
def getTenantByRequest (db : Store) (cache : Cache) (req : Request) :
    Except PyErr TenantOrResponse × Cache :=
  match req.httpHost with
  | none => (.ok .badRequestResponse, cache)
  | some host =>
    match cacheLookup cache
        (.domain (if ':' ∈ host.data then (splitDomainPort host).1 else host)) with
    | some t => (.ok (.tenant t), cache)
    | none =>
      match pyGet (tenantRows db
          (if ':' ∈ host.data then (splitDomainPort host).1 else host)) with
      | .ok t => (.ok (.tenant t),
          cacheInsert cache
            (.domain (if ':' ∈ host.data then (splitDomainPort host).1 else host)) t)
      | .error e => (.error e, cache)

/-- Model of `multitenancy.managers.clear_tenant_cache`, connected to `pre_save` and
`pre_delete` with `sender=Site`: delete the cache entry keyed by the
instance's pk (`KeyError` swallowed); then look up the `Tenant` whose pk
equals the instance's pk and delete the cache entry keyed by its `domain`
attribute — `Tenant` has no `domain` attribute, so when such a tenant
exists the handler raises `AttributeError` (only `KeyError` and
`Tenant.DoesNotExist` are caught).  An unsaved instance is modelled by a
`none` pk (both lookups miss). -/
def clearTenantCache (db : Store) (cache : Cache) (instPk : Option Nat) :
    Except PyErr Cache :=
  let cache1 := match instPk with
    | some pk => cacheDel cache (.pk pk)
    | none => cache
  match instPk.bind fun pk => db.tenants.find? fun t => t.pk = pk with
  | none => .ok cache1
  | some _ => .error .attributeError

/-- Deleting a `Site` row: the `pre_delete` receiver `clear_tenant_cache`
runs first (aborting the delete if it raises), then the row is removed and
the deletion cascades to the tenant pointing at it and to that tenant's
aliases. -/
def deleteSiteOp (db : Store) (cache : Cache) (sitePk : Nat) :
    Except PyErr (Store × Cache) :=
  match clearTenantCache db cache (some sitePk) with
  | .error e => .error e
  | .ok cache1 =>
    let survivors := db.tenants.filter fun t => t.site.pk ≠ sitePk
    let aliases := db.aliases.filter fun al =>
      survivors.any fun t => t.pk = al.tenantPk
    .ok ({ tenants := survivors, aliases := aliases }, cache1)

/-- Deleting a `Tenant` row directly (as the admin does): no receiver is
connected for `sender=Tenant`, so nothing touches the cache; the deletion
cascades to the tenant's aliases. -/
def deleteTenantOp (db : Store) (cache : Cache) (tenantPk : Nat) :
    Store × Cache :=
  ({ tenants := db.tenants.filter fun t => t.pk ≠ tenantPk,
     aliases := db.aliases.filter fun al => al.tenantPk ≠ tenantPk }, cache)

/-- The single-root check at the end of `Tenant.clean_fields`
(multitenancy/models/tenant.py lines 72-90): `get(is_root_site=True)` and,
when a different tenant already holds the flag while `self.is_root_site` is
set, the `ValidationError` message interpolates `root.hostname` — an
attribute `Tenant` does not have — so the rejection surfaces as
`AttributeError` rather than `ValidationError`. -/
def rootSiteCheck (db : Store) (t : Tenant) : Except PyErr Unit :=
  match pyGet (db.tenants.filter fun x => x.isRootSite) with
  | .error .doesNotExist => .ok ()
  | .error e => .error e
  | .ok root =>
    if t.isRootSite ∧ t.pk ≠ root.pk then .error .attributeError
    else .ok ()

/-- Model of `Tenant.clean_fields` (multitenancy/models/tenant.py lines 70-90).  The
inherited field validation runs first: a truthy `preferred_domain` is
checked by `PreferredHostnameValidator` against the aliases and domain of
the current tenant (`cur`, the explicit stand-in for
`Tenant.objects.get_current()`); blank or null values are skipped.  Then
the single-root check of `rootSiteCheck`. -/
def cleanFields (db : Store) (cur : Option Tenant) (t : Tenant) :
    Except PyErr Unit :=
  match t.preferredDomain with
  | none => rootSiteCheck db t
  | some p =>
    if p = "" then rootSiteCheck db t
    else
      match cur with
      | none => .error .attributeError
      | some ct =>
        if p ∈ (db.aliases.filter fun al => al.tenantPk = ct.pk).map
              SiteAlias.domain ∨ p = ct.site.domain then
          rootSiteCheck db t
        else .error .valueError

/-- Model of `TenantManager._create_site` (multitenancy/managers.py lines 85-103):
reject falsy domain or site name with `ValueError`, save the new `Site`
(whose `pre_save` receiver runs on the unsaved instance and therefore does
nothing), then save the `Tenant` carrying `is_root_site`; the
`pre_tenant_create`/`post_tenant_create` signals have no receivers in the
package.  No `full_clean`/`clean_fields` runs on this path. -/
def createSiteOp (db : Store) (cache : Cache) (sitePk tenantPk : Nat)
    (domain name : String) (isRootSite : Bool) :
    Except PyErr (Store × Cache) :=
  if domain = "" then .error .valueError
  else if name = "" then .error .valueError
  else
    match clearTenantCache db cache none with
    | .error e => .error e
    | .ok cache1 =>
      let site : SiteRec := { pk := sitePk, domain := domain, name := name }
      let tenant : Tenant :=
        { pk := tenantPk, site := site, preferredDomain := none,
          isRootSite := isRootSite }
      .ok ({ db with tenants := db.tenants ++ [tenant] }, cache1)

/-- Model of `TenantManager.create_root_site`: default `is_root_site` to `True`,
raise `ValueError` if a caller explicitly passed something else, and
delegate to `_create_site`. -/
def createRootSiteOp (db : Store) (cache : Cache) (sitePk tenantPk : Nat)
    (domain name : String) (isRootSiteArg : Option Bool := none) :
    Except PyErr (Store × Cache) :=
  let flag := isRootSiteArg.getD true
  if flag ≠ true then .error .valueError
  else createSiteOp db cache sitePk tenantPk domain name flag

/-- Model of `multitenancy.models.auth.TenantMembership`: join row between a user and
a tenant with per-tenant `is_active` / `is_staff` flags. -/
structure TenantMembership where
  tenantPk : Nat
  userPk : Nat
  isActive : Bool
  isStaff : Bool
  deriving DecidableEq, Repr

/-- A principal as the auth code reads it: the global `_is_active` and
`_is_staff` booleans of `AbstractTenantUser`, the `is_superuser` flag from
`PermissionsMixin`, whether it is Django's `AnonymousUser`, the ids of the
Django auth `Group` rows it belongs to, and its direct permissions. -/
structure UserRec where
  pk : Nat
  isActiveFlag : Bool
  isStaffFlag : Bool
  isSuperuser : Bool
  isAnonymous : Bool
  groups : List Nat
  userPerms : List String
  deriving DecidableEq, Repr

/-- Model of `multitenancy.models.auth.TenantGroup`: wraps one Django `Group`
(`group` one-to-one), is scoped to one tenant, and carries its own `users`
many-to-many. -/
structure TenantGroup where
  groupId : Nat
  tenantPk : Nat
  users : List Nat
  deriving DecidableEq, Repr

/-- The auth-side store: tenant groups, membership rows, the permissions
attached to each Django `Group` (pairs of group id and
`"app_label.codename"` string), and the full permission universe that
`Permission.objects.all()` returns for superusers. -/
structure AuthDb where
  tenantGroups : List TenantGroup
  memberships : List TenantMembership
  groupPerms : List (Nat × String)
  allPerms : List String
  deriving DecidableEq, Repr

/-- Model of `AbstractTenantUser.is_super_admin`: the user belongs to one of the
Django `Group` rows that back a `TenantGroup`
(`TenantGroup.objects.django_groups()`). -/
def isSuperAdmin (adb : AuthDb) (u : UserRec) : Bool :=
  adb.tenantGroups.any fun tg => u.groups.contains tg.groupId

/-- Models `Tenant.objects.get_current()` called with no request argument
(multitenancy/managers.py lines 67-75): the `else` branch fetches the
crequest request but has no `return` statement, so the call falls off the
end of the function and always yields `None` — regardless of what the
ambient current tenant actually is. -/
def getCurrentNoRequest : Option Nat := none

/-- Models `if not tenant: tenant = Tenant.objects.get_current()` — the
explicit tenant argument wins, else the value `get_current()` produced. -/
def resolveTenantArg (tenant cur : Option Nat) : Option Nat :=
  match tenant with
  | some x => some x
  | none => cur

/-- The rows `TenantMembership.objects.filter(tenant=t, user=u)` would
return (`get` is `pyGet` over them).  The `tenant` foreign key is not
nullable, so a `None` tenant matches no row. -/
def membershipRows (adb : AuthDb) (t : Option Nat) (u : UserRec) :
    List TenantMembership :=
  adb.memberships.filter fun m => some m.tenantPk = t ∧ m.userPk = u.pk

/-- Model of `AbstractTenantUser.is_active_for_tenant` (multitenancy/models/auth.py
lines 190-196): super admins with the global flag are active; otherwise
`TenantMembership.objects.get(tenant=tenant, user=self)` — raising
`DoesNotExist` when no row matches — supplies the per-tenant flag.  A
`None` tenant argument is replaced by `Tenant.objects.get_current()`,
which on this no-argument path always returns `None`
(`getCurrentNoRequest`). -/
def isActiveForTenant (adb : AuthDb) (u : UserRec) (tenant : Option Nat) :
    Except PyErr Bool :=
  if isSuperAdmin adb u ∧ u.isActiveFlag then .ok true
  else
    (pyGet (membershipRows adb (resolveTenantArg tenant getCurrentNoRequest) u)).map
      TenantMembership.isActive

/-- Model of `AbstractTenantUser.is_staff_for_tenant` (multitenancy/models/auth.py
lines 160-166), structured exactly like `isActiveForTenant`. -/
def isStaffForTenant (adb : AuthDb) (u : UserRec) (tenant : Option Nat) :
    Except PyErr Bool :=
  if isSuperAdmin adb u ∧ u.isStaffFlag then .ok true
  else
    (pyGet (membershipRows adb (resolveTenantArg tenant getCurrentNoRequest) u)).map
      TenantMembership.isStaff

/-- The `AbstractTenantUser.is_active` property (multitenancy/models/auth.py
lines 102-105): `self._is_active and self.is_active_for_tenant()`, where
Python's `and` short-circuits so the tenant lookup only runs when the
global flag is truthy.  The no-argument `is_active_for_tenant()` call
resolves its tenant through the always-`None` `get_current()`, so the
membership lookup never sees the actual current tenant. -/
def effIsActive (adb : AuthDb) (u : UserRec) : Except PyErr Bool :=
  if u.isActiveFlag = false then .ok false
  else isActiveForTenant adb u none

/-- The `AbstractTenantUser.is_staff` property (multitenancy/models/auth.py
lines 115-117): `self._is_staff and self.is_staff_for_tenant()`, with the
same always-`None` current-tenant resolution as `effIsActive`. -/
def effIsStaff (adb : AuthDb) (u : UserRec) : Except PyErr Bool :=
  if u.isStaffFlag = false then .ok false
  else isStaffForTenant adb u none

/-- Models `user_obj.is_active` as the permission backend evaluates it: Django's
`AnonymousUser` carries a plain `is_active = False` attribute, every other
principal goes through the `AbstractTenantUser.is_active` property.  The
ambient-request argument `_cur` is threaded through the backend entry
points for uniformity, but the property never consults it: its
current-tenant lookup is the always-`None` `get_current()`. -/
def evalIsActive (adb : AuthDb) (_cur : Option Nat) (u : UserRec) :
    Except PyErr Bool :=
  if u.isAnonymous then .ok false
  else effIsActive adb u

/-- The permission strings of `TenantModelBackend._get_group_permissions`:
permissions of the user's plain Django groups unioned with those of groups
backing a `TenantGroup` of the current tenant in which the user is
enrolled. -/
def groupPermissionStrings (adb : AuthDb) (cur : Option Nat) (u : UserRec) :
    List String :=
  (adb.groupPerms.filter fun gp =>
    u.groups.contains gp.1 ∨
      adb.tenantGroups.any fun tg =>
        tg.groupId = gp.1 ∧ some tg.tenantPk = cur ∧ tg.users.contains u.pk
  ).map Prod.snd

/-- Model of `TenantModelBackend._get_permissions` (multitenancy/backends.py lines
37-62) for a single call (the per-tenant attribute cache only affects
repeated calls on one request): inactive or anonymous principals, and
lookups with a concrete `obj`, yield the empty set; superusers get the full
permission universe; otherwise the group or user permissions are fetched.
`isGroup` selects between `from_name = "group"` and `"user"`. -/
def getPermissionsFrom (adb : AuthDb) (cur : Option Nat) (u : UserRec)
    (obj : Option Nat) (isGroup : Bool) : Except PyErr (List String) :=
  match evalIsActive adb cur u with
  | .error e => .error e
  | .ok active =>
    if active = false ∨ u.isAnonymous ∨ obj.isSome then .ok []
    else if u.isSuperuser then .ok adb.allPerms
    else if isGroup then .ok (groupPermissionStrings adb cur u)
    else .ok u.userPerms

/-- Model of `TenantModelBackend.get_all_permissions` (multitenancy/backends.py lines
64-75) for a single call: the same guard, then the union that
`ModelBackend.get_all_permissions` computes from the user and group
permission sets. -/
def getAllPermissions (adb : AuthDb) (cur : Option Nat) (u : UserRec)
    (obj : Option Nat) : Except PyErr (List String) :=
  match evalIsActive adb cur u with
  | .error e => .error e
  | .ok active =>
    if active = false ∨ u.isAnonymous ∨ obj.isSome then .ok []
    else if u.isSuperuser then .ok adb.allPerms
    else .ok (u.userPerms ++ groupPermissionStrings adb cur u)

/-! General lemmas about the embedded operations. -/

theorem charToNat_inj {a b : Char} (h : a.toNat = b.toNat) : a = b :=
  Char.ext (UInt32.toNat.inj h)

theorem pyLowerChar_toNat (c : Char) :
    (pyLowerChar c).toNat =
      if 65 ≤ c.toNat ∧ c.toNat ≤ 90 then c.toNat + 32 else c.toNat := by
  unfold pyLowerChar
  by_cases h : 65 ≤ c.toNat ∧ c.toNat ≤ 90
  · rw [dif_pos h, if_pos h, toNat_ofNatAux]
  · rw [dif_neg h, if_neg h]

theorem specChar_lower_body {c : Char} (h : specValidDomainChar c = true) :
    isHostBodyChar (pyLowerChar c) = true := by
  have ht := pyLowerChar_toNat c
  simp only [specValidDomainChar, isAlnumAscii, Bool.or_eq_true,
    Bool.and_eq_true, decide_eq_true_eq] at h
  simp only [isHostBodyChar, Bool.or_eq_true, Bool.and_eq_true,
    decide_eq_true_eq]
  by_cases hc : 65 ≤ c.toNat ∧ c.toNat ≤ 90
  · rw [if_pos hc] at ht
    omega
  · rw [if_neg hc] at ht
    omega

theorem bodyChar_ne_colon {c : Char} (h : isHostBodyChar c = true) : c ≠ ':' := by
  intro he
  rw [he] at h
  exact absurd h (by decide)

theorem specChar_ne_colon {c : Char} (h : specValidDomainChar c = true) :
    c ≠ ':' := by
  intro he
  rw [he] at h
  exact absurd h (by decide)

theorem digitChar_lower_self {c : Char} (h : isDigitAscii c = true) :
    pyLowerChar c = c := by
  apply pyLowerChar_eq_self
  simp only [isDigitAscii, Bool.and_eq_true, decide_eq_true_eq] at h
  omega

theorem digitChar_ne_colon {c : Char} (h : isDigitAscii c = true) : c ≠ ':' := by
  intro he
  rw [he] at h
  exact absurd h (by decide)

theorem specChar_lower_ne_dot {c : Char} (_h : specValidDomainChar c = true)
    (hd : c ≠ '.') : pyLowerChar c ≠ '.' := by
  intro he
  have ht := pyLowerChar_toNat c
  rw [he] at ht
  by_cases hc : 65 ≤ c.toNat ∧ c.toNat ≤ 90
  · rw [if_pos hc] at ht
    have : ('.' : Char).toNat = 46 := rfl
    omega
  · rw [if_neg hc] at ht
    exact hd (charToNat_inj ht.symm)

theorem pySplit_no_sep {sep : Char} {l : List Char} (h : sep ∉ l) :
    pySplit sep l = [l] := by
  induction l with
  | nil => rfl
  | cons c rest ih =>
    have hc : ¬(c = sep) := fun he => h (he ▸ List.mem_cons_self c rest)
    have hr := ih fun hm => h (List.mem_cons_of_mem c hm)
    simp only [pySplit]
    rw [if_neg hc, hr]
    rfl

theorem pySplit_append {sep : Char} {d rest : List Char} (h : sep ∉ d) :
    pySplit sep (d ++ sep :: rest) = d :: pySplit sep rest := by
  induction d with
  | nil =>
    simp only [List.nil_append, pySplit]
    simp
  | cons c t ih =>
    have hc : ¬(c = sep) := fun he => h (he ▸ List.mem_cons_self c t)
    have hr := ih fun hm => h (List.mem_cons_of_mem c hm)
    simp only [List.cons_append, pySplit]
    rw [if_neg hc, List.append_eq, hr]
    rfl

theorem splitAtFirst_append {sep : Char} {a b : List Char} (h : sep ∉ a) :
    splitAtFirst sep (a ++ sep :: b) = some (a, b) := by
  induction a with
  | nil =>
    simp only [List.nil_append]
    unfold splitAtFirst
    rw [if_pos rfl]
  | cons c t ih =>
    have hc : ¬(c = sep) := fun he => h (he ▸ List.mem_cons_self c t)
    have hr := ih fun hm => h (List.mem_cons_of_mem c hm)
    simp only [List.cons_append]
    unfold splitAtFirst
    rw [if_neg hc, hr]

theorem splitAtLast_no_sep {sep : Char} {l : List Char} (h : sep ∉ l) :
    splitAtLast sep l = none := by
  induction l with
  | nil => rfl
  | cons c rest ih =>
    have hc : ¬(c = sep) := fun he => h (he ▸ List.mem_cons_self c rest)
    have hr := ih fun hm => h (List.mem_cons_of_mem c hm)
    unfold splitAtLast
    rw [hr, if_neg hc]

theorem splitAtLast_append {sep : Char} {a b : List Char} (ha : sep ∉ a)
    (hb : sep ∉ b) : splitAtLast sep (a ++ sep :: b) = some (a, b) := by
  induction a with
  | nil =>
    simp only [List.nil_append]
    unfold splitAtLast
    rw [splitAtLast_no_sep hb, if_pos rfl]
  | cons c t ih =>
    have hr := ih fun hm => ha (List.mem_cons_of_mem c hm)
    simp only [List.cons_append]
    unfold splitAtLast
    rw [hr]

theorem pyGet_ok_mem {α : Type} {l : List α} {x : α} (h : pyGet l = .ok x) :
    x ∈ l := by
  match l, h with
  | [y], h =>
    unfold pyGet at h
    cases h
    exact List.mem_singleton.mpr rfl

theorem cacheLookup_del_self (c : Cache) (k : CacheKey) :
    cacheLookup (cacheDel c k) k = none := by
  unfold cacheLookup cacheDel
  rw [List.find?_eq_none.mpr]
  · rfl
  · intro kv hkv
    have := (List.mem_filter.mp hkv).2
    simp only [decide_eq_true_eq] at this ⊢
    exact fun hk => this hk

theorem cacheLookup_del_ne (c : Cache) (k k' : CacheKey) (h : k' ≠ k) :
    cacheLookup (cacheDel c k) k' = cacheLookup c k' := by
  unfold cacheLookup cacheDel
  congr 1
  induction c with
  | nil => rfl
  | cons kv rest ih =>
    by_cases hk : kv.1 = k
    · rw [List.filter_cons]
      simp only [hk, decide_eq_true_eq]
      rw [if_neg (by simp)]
      rw [ih]
      have hne : ¬(kv.1 = k') := fun he => h (he ▸ hk.symm ▸ rfl)
      rw [List.find?_cons_of_neg]
      simp only [decide_eq_true_eq]
      exact hne
    · rw [List.filter_cons]
      rw [if_pos (by simpa using hk)]
      by_cases hk' : kv.1 = k'
      · rw [List.find?_cons_of_pos, List.find?_cons_of_pos] <;>
          simp [hk']
      · rw [List.find?_cons_of_neg, List.find?_cons_of_neg]
        · exact ih
        · simp [hk']
        · simp [hk']

theorem isEmpty_false_of_ne_nil {l : List Char} (h : l ≠ []) :
    l.isEmpty = false := by
  cases l with
  | nil => exact absurd rfl h
  | cons c t => rfl

theorem contains_false_of_not_mem {l : List Char} {a : Char} (h : a ∉ l) :
    l.contains a = false := by
  simpa using h

theorem iexact_congr {d1 d2 : String} (h : pyLower d1 = pyLower d2)
    (x : String) : iexact x d1 = iexact x d2 := by
  unfold iexact
  rw [h]

theorem tenantRows_congr (db : Store) {d1 d2 : String}
    (h : pyLower d1 = pyLower d2) : tenantRows db d1 = tenantRows db d2 := by
  unfold tenantRows
  simp only [iexact_congr h]

theorem data_append_colon (d p : String) :
    (d ++ ":" ++ p).data = d.data ++ ':' :: p.data := by
  rw [String.data_append, String.data_append, List.append_assoc]
  rfl

theorem stripPort_port {d p : String} (hd : ':' ∉ d.data)
    (hp : ':' ∉ p.data) : stripPort (d ++ ":" ++ p) = .ok d := by
  unfold stripPort
  rw [data_append_colon]
  rw [if_pos (by simp), pySplit_append hd, pySplit_no_sep hp]

theorem stripPort_no_colon {d : String} (hd : ':' ∉ d.data) :
    stripPort d = .ok d := by
  unfold stripPort
  rw [if_neg hd]

theorem splitDomainPort_valid {d p : String} (hne : d.data ≠ [])
    (hch : d.data.all specValidDomainChar = true)
    (hlast : d.data.getLast? ≠ some '.')
    (hpne : p.data ≠ []) (hpd : p.data.all isDigitAscii = true) :
    splitDomainPort (d ++ ":" ++ p) = (pyLower d, p) := by
  have hspec : ∀ c ∈ d.data, specValidDomainChar c = true :=
    fun c hc => List.all_eq_true.mp hch c hc
  have hdig : ∀ c ∈ p.data, isDigitAscii c = true :=
    fun c hc => List.all_eq_true.mp hpd c hc
  have hpcolon : ':' ∉ p.data := fun hm => digitChar_ne_colon (hdig _ hm) rfl
  have hpmap : p.data.map pyLowerChar = p.data := by
    rw [List.map_congr_left fun c hc => digitChar_lower_self (hdig c hc)]
    exact List.map_id p.data
  have hlowd : (pyLower (d ++ ":" ++ p)).data =
      d.data.map pyLowerChar ++ ':' :: p.data := by
    unfold pyLower
    rw [data_append_colon, List.map_append, List.map_cons, hpmap]
    rfl
  have hmapne : d.data.map pyLowerChar ≠ [] := by
    simpa [List.map_eq_nil_iff] using hne
  have hbody : ∀ c ∈ d.data.map pyLowerChar, isHostBodyChar c = true := by
    intro c hc
    obtain ⟨c', hc', rfl⟩ := List.mem_map.mp hc
    exact specChar_lower_body (hspec c' hc')
  have hmcolon : ':' ∉ d.data.map pyLowerChar :=
    fun hm => bodyChar_ne_colon (hbody _ hm) rfl
  have hre : hostReMatch (d.data.map pyLowerChar ++ ':' :: p.data) = true := by
    unfold hostReMatch
    rw [splitAtFirst_append hmcolon]
    simp [isEmpty_false_of_ne_nil hmapne, isEmpty_false_of_ne_nil hpne,
      List.all_eq_true.mpr hbody, hpd, contains_false_of_not_mem hpcolon]
    exact Or.inl hpcolon
  obtain ⟨cp, hcp⟩ := Option.isSome_iff_exists.mp (List.getLast?_isSome.mpr hpne)
  have hlastfull : (d.data.map pyLowerChar ++ ':' :: p.data).getLast? = some cp := by
    rw [List.getLast?_append_of_ne_nil _ (List.cons_ne_nil ':' p.data)]
    have : ':' :: p.data = [':'] ++ p.data := rfl
    rw [this, List.getLast?_append_of_ne_nil _ hpne]
    exact hcp
  have hcpne : cp ≠ ']' := by
    have hcpd := hdig cp (List.mem_of_mem_getLast? (by rw [hcp]; rfl))
    intro he
    rw [he] at hcpd
    exact absurd hcpd (by decide)
  obtain ⟨cd, hcd⟩ := Option.isSome_iff_exists.mp (List.getLast?_isSome.mpr hne)
  have hcdmem : cd ∈ d.data := List.mem_of_mem_getLast? (by rw [hcd]; rfl)
  have hcdnd : cd ≠ '.' := fun he => hlast (he ▸ hcd)
  have hlastmap : (d.data.map pyLowerChar).getLast? = some (pyLowerChar cd) := by
    rw [List.getLast?_map, hcd]
    rfl
  have hdropn : dropTrailingDot (String.mk (d.data.map pyLowerChar)) =
      String.mk (d.data.map pyLowerChar) := by
    unfold dropTrailingDot
    rw [if_neg]
    show ¬(d.data.map pyLowerChar).getLast? = some '.'
    rw [hlastmap]
    intro he
    exact specChar_lower_ne_dot (hspec cd hcdmem) hcdnd (Option.some.inj he)
  unfold splitDomainPort
  rw [hlowd, hre]
  rw [if_neg (by simp)]
  rw [if_neg (by rw [hlastfull]; exact fun he => hcpne (Option.some.inj he))]
  rw [splitAtLast_append hmcolon hpcolon]
  show (dropTrailingDot (String.mk (d.data.map pyLowerChar)),
    String.mk p.data) = (pyLower d, p)
  rw [hdropn]
  rfl

theorem tenantRows_subset {db : Store} {d : String} {t : Tenant}
    (h : t ∈ tenantRows db d) : t ∈ db.tenants := by
  unfold tenantRows at h
  obtain ⟨a, ha, hx⟩ := List.mem_flatMap.mp h
  by_cases he : (db.aliases.filter fun al => al.tenantPk = a.pk).isEmpty
  · rw [if_pos he] at hx
    by_cases hi : iexact a.site.domain d
    · rw [if_pos hi] at hx
      rw [List.mem_singleton.mp hx]
      exact ha
    · rw [if_neg hi] at hx
      cases hx
  · rw [if_neg he] at hx
    obtain ⟨al, _, hal⟩ := List.mem_filterMap.mp hx
    by_cases hi : (iexact a.site.domain d || iexact al.domain d) = true
    · rw [if_pos hi] at hal
      cases hal
      exact ha
    · rw [if_neg hi] at hal
      cases hal

theorem membershipRows_none (adb : AuthDb) (u : UserRec) :
    membershipRows adb none u = [] := by
  simp [membershipRows]

/-! Concrete instances used by witnesses and counterexamples. -/

/-- An empty tenant store. -/
def emptyStore : Store := { tenants := [], aliases := [] }

/-- The empty cache. -/
def emptyCache : Cache := []

/-- A request carrying no `HTTP_HOST` header. -/
def noHostReq : Request := { httpHost := none, path := "/", isSecure := true, GET := [] }

/-- A tenant with canonical domain `a.com` and (in `pairStore`) alias
`b.com`. -/
def tenantA : Tenant :=
  { pk := 1, site := { pk := 1, domain := "a.com", name := "A" },
    preferredDomain := none, isRootSite := false }

/-- A store holding `tenantA` with alias `b.com`. -/
def pairStore : Store :=
  { tenants := [tenantA],
    aliases := [{ pk := 1, domain := "b.com", tenantPk := 1 }] }

/-- The root tenant of the middleware examples. -/
def rootT : Tenant :=
  { pk := 1, site := { pk := 1, domain := "root.example.com", name := "Root" },
    preferredDomain := none, isRootSite := true }

/-- A store holding only the root tenant. -/
def rootStore : Store := { tenants := [rootT], aliases := [] }

/-- A secure request for an administrative path on the root tenant's
canonical domain. -/
def rootAdminReq : Request :=
  { httpHost := some "root.example.com", path := "/admin/tenants/",
    isSecure := true, GET := [] }

/-! Claim theorems. -/

/-- C6: a request with no host header makes resolution fail with the
missing-host error, the middleware answers with the 400 response, and the
request is never forwarded to a downstream handler with a tenant
attached. -/
theorem c6_missing_host_rejected (db : Store) (req : Request)
    (h : req.httpHost = none) :
    matchSiteToRequest db req = .error .missingHost ∧
    processRequest db req = .badRequest ∧
    ∀ (t : Tenant) (p : String), processRequest db req ≠ .forward t p := by
  refine ⟨?_, ?_, ?_⟩
  · unfold matchSiteToRequest
    rw [h]
  · unfold processRequest matchSiteToRequest
    rw [h]
  · intro t p
    unfold processRequest matchSiteToRequest
    rw [h]
    simp

/-- Witness for C6 at a concrete host-less request over the empty store. -/
theorem c6_missing_host_rejected_witness :
    matchSiteToRequest emptyStore noHostReq = .error .missingHost ∧
    processRequest emptyStore noHostReq = .badRequest ∧
    ∀ (t : Tenant) (p : String),
      processRequest emptyStore noHostReq ≠ .forward t p :=
  c6_missing_host_rejected emptyStore noHostReq rfl

/-- C2: in a store where `T` is the unique tenant with canonical domain `a`
and the unique owner of alias `b`, and `c` belongs to nobody, resolution
returns the canonical-domain match for `a`, the alias match for `b`, and
`DoesNotExist` for `c`; moreover any host matching a unique canonical
domain is answered from the canonical-domain lookup no matter what the
alias table contains. -/
theorem c2_resolution (db : Store) (T : Tenant) (a b c : String)
    (hca : ':' ∉ a.data) (hcb : ':' ∉ b.data) (hcc : ':' ∉ c.data)
    (ha : db.tenants.filter (fun t => t.site.domain = a) = [T])
    (hbdom : db.tenants.filter (fun t => t.site.domain = b) = [])
    (hb : aliasJoinRows db b = [T])
    (hcdom : db.tenants.filter (fun t => t.site.domain = c) = [])
    (hcal : aliasJoinRows db c = []) :
    matchSiteToRequest db (hostReq a) = .ok (.domain, T) ∧
    matchSiteToRequest db (hostReq b) = .ok (.alias, T) ∧
    matchSiteToRequest db (hostReq c) = .error .doesNotExist ∧
    ∀ (h : String) (T' : Tenant), ':' ∉ h.data →
      db.tenants.filter (fun t => t.site.domain = h) = [T'] →
      matchSiteToRequest db (hostReq h) = .ok (.domain, T') := by
  refine ⟨?_, ?_, ?_, ?_⟩
  · unfold matchSiteToRequest hostReq stripPort
    simp only [if_neg hca, ha]
    rfl
  · unfold matchSiteToRequest hostReq stripPort
    simp only [if_neg hcb, hbdom, hb]
    rfl
  · unfold matchSiteToRequest hostReq stripPort
    simp only [if_neg hcc, hcdom, hcal]
    rfl
  · intro h T' hch hfil
    unfold matchSiteToRequest hostReq stripPort
    simp only [if_neg hch, hfil]
    rfl

/-- Witness for C2 on the concrete store with tenant `a.com` and alias
`b.com`. -/
theorem c2_resolution_witness :
    matchSiteToRequest pairStore (hostReq "a.com") = .ok (.domain, tenantA) ∧
    matchSiteToRequest pairStore (hostReq "b.com") = .ok (.alias, tenantA) ∧
    matchSiteToRequest pairStore (hostReq "c.com") =
      .error .doesNotExist ∧
    ∀ (h : String) (T' : Tenant), ':' ∉ h.data →
      pairStore.tenants.filter (fun t => t.site.domain = h) = [T'] →
      matchSiteToRequest pairStore (hostReq h) = .ok (.domain, T') :=
  c2_resolution pairStore tenantA "a.com" "b.com" "c.com"
    (by decide) (by decide) (by decide) rfl rfl rfl rfl rfl

/-- C5 counterexample: the resolved tenant is the root site and the request
targets the normal administrative path `/admin/tenants/`, yet the
middleware forwards the request with its path unchanged — no rewrite to a
super-admin path exists in `process_request`. -/
theorem c5_no_rewrite_counterexample :
    rootT.isRootSite = true ∧
    rootAdminReq.path = "/admin/tenants/" ∧
    processRequest rootStore rootAdminReq = .forward rootT "/admin/tenants/" :=
  ⟨rfl, rfl, by decide⟩

/-- C5 amended: the middleware never rewrites the request path; whenever a
request — in particular one resolved to the root-site tenant on an
administrative path — is forwarded, the forwarded path is exactly the
original request path. -/
theorem c5_forward_preserves_path (db : Store) (req : Request) (t : Tenant)
    (p : String) (h : processRequest db req = .forward t p) : p = req.path := by
  unfold processRequest at h
  cases hm : matchSiteToRequest db req with
  | error e =>
    rw [hm] at h
    cases e <;> cases h
  | ok pr =>
    obtain ⟨mt, site⟩ := pr
    simp only [hm] at h
    cases hh : req.httpHost with
    | none =>
      simp only [hh] at h
      cases h
    | some host =>
      simp only [hh] at h
      by_cases hc : List.isPrefixOf "/admin/".data req.path.data ∧
          (req.isSecure = false ∨
            (mt = .alias ∧ site.preferredDomain ≠ some (splitDomainPort host).1))
      · rw [if_pos hc] at h
        cases h
      · rw [if_neg hc] at h
        cases h
        rfl

/-- Witness for C5 amended at the concrete root-site admin request. -/
theorem c5_forward_preserves_path_witness : "/admin/tenants/" = rootAdminReq.path :=
  c5_forward_preserves_path rootStore rootAdminReq rootT "/admin/tenants/"
    (by decide)

/-- The admin/form save path for a `Tenant`: `full_clean` runs
`clean_fields` and only on success is the row written (update in place by
pk, else insert). -/
def validatedSave (db : Store) (cur : Option Tenant) (t : Tenant) :
    Except PyErr Store :=
  match cleanFields db cur t with
  | .error e => .error e
  | .ok _ =>
    if db.tenants.any fun x => x.pk = t.pk then
      .ok { db with tenants := db.tenants.map fun x => if x.pk = t.pk then t else x }
    else
      .ok { db with tenants := db.tenants ++ [t] }

/-- The store after the first `create_root_site` call of the C1
counterexample. -/
def c1StoreOne : Store :=
  { tenants := [{ pk := 1,
                  site := { pk := 1, domain := "root.example.com", name := "Root" },
                  preferredDomain := none, isRootSite := true }],
    aliases := [] }

/-- The store after the second `create_root_site` call of the C1
counterexample: two tenants carry `is_root_site = true`. -/
def c1StoreTwo : Store :=
  { tenants := [{ pk := 1,
                  site := { pk := 1, domain := "root.example.com", name := "Root" },
                  preferredDomain := none, isRootSite := true },
                { pk := 2,
                  site := { pk := 2, domain := "second.example.com", name := "Second" },
                  preferredDomain := none, isRootSite := true }],
    aliases := [] }

/-- C1 counterexample: two successive `TenantManager.create_root_site`
calls both succeed — the manager path never runs the single-root check —
leaving a store in which two tenants have `is_root_site = true`. -/
theorem c1_two_roots_counterexample :
    createRootSiteOp emptyStore emptyCache 1 1 "root.example.com" "Root" =
      .ok (c1StoreOne, emptyCache) ∧
    createRootSiteOp c1StoreOne emptyCache 2 2 "second.example.com" "Second" =
      .ok (c1StoreTwo, emptyCache) ∧
    (c1StoreTwo.tenants.filter fun t => t.isRootSite).length = 2 :=
  ⟨rfl, rfl, rfl⟩

/-- C1 amended: on the validated (`clean_fields`) path the single-root
invariant is enforced — `clean_fields` accepts a tenant exactly when it
does not claim the root flag or is itself the stored root, and an attempt
to set the flag on a different tenant fails (with the `AttributeError`
produced by the broken message interpolation) so that a guarded save
leaves the store unchanged; the manager's `create_root_site` path runs no
such check. -/
theorem c1_single_root_validated (db : Store) (cur : Option Tenant)
    (t root : Tenant) (hp : t.preferredDomain = none)
    (hroot : db.tenants.filter (fun x => x.isRootSite) = [root]) :
    (cleanFields db cur t = .ok () ↔
      (t.isRootSite = false ∨ t.pk = root.pk)) ∧
    (t.isRootSite = true → t.pk ≠ root.pk →
      cleanFields db cur t = .error .attributeError ∧
      validatedSave db cur t = .error .attributeError) := by
  have hclean : cleanFields db cur t = rootSiteCheck db t := by
    unfold cleanFields
    rw [hp]
  have hcheck : rootSiteCheck db t =
      if t.isRootSite ∧ t.pk ≠ root.pk then .error .attributeError
      else .ok () := by
    unfold rootSiteCheck
    rw [hroot]
    rfl
  constructor
  · rw [hclean, hcheck]
    by_cases hc : t.isRootSite ∧ t.pk ≠ root.pk
    · rw [if_pos hc]
      constructor
      · intro h
        cases h
      · intro h
        rcases h with h | h
        · rw [h] at hc
          exact absurd hc (by simp)
        · exact absurd hc (by simp [h])
    · rw [if_neg hc]
      constructor
      · intro _
        by_cases hr : t.isRootSite = true
        · right
          by_contra hpk
          exact hc ⟨hr, hpk⟩
        · left
          exact Bool.not_eq_true _ ▸ hr
      · intro _
        rfl
  · intro hr hpk
    have herr : cleanFields db cur t = .error .attributeError := by
      rw [hclean, hcheck, if_pos ⟨hr, hpk⟩]
    refine ⟨herr, ?_⟩
    unfold validatedSave
    rw [herr]

/-- Witness for C1 amended: with `c1StoreOne` holding the root tenant, a
different tenant claiming the flag is rejected and the guarded save
errors. -/
theorem c1_single_root_validated_witness :
    cleanFields c1StoreOne none
      { pk := 2, site := { pk := 2, domain := "second.example.com", name := "Second" },
        preferredDomain := none, isRootSite := true } = .error .attributeError ∧
    validatedSave c1StoreOne none
      { pk := 2, site := { pk := 2, domain := "second.example.com", name := "Second" },
        preferredDomain := none, isRootSite := true } = .error .attributeError :=
  (c1_single_root_validated c1StoreOne none
    { pk := 2, site := { pk := 2, domain := "second.example.com", name := "Second" },
      preferredDomain := none, isRootSite := true }
    { pk := 1, site := { pk := 1, domain := "root.example.com", name := "Root" },
      preferredDomain := none, isRootSite := true }
    rfl rfl).2 rfl (by decide)

/-- The tenant of the C3 counterexample: its own pk (2) differs from its
site's pk (7). -/
def c3Tenant : Tenant :=
  { pk := 2, site := { pk := 7, domain := "a.com", name := "A" },
    preferredDomain := none, isRootSite := false }

/-- Store with `c3Tenant` and its alias `b.com`. -/
def c3Store : Store :=
  { tenants := [c3Tenant],
    aliases := [{ pk := 1, domain := "b.com", tenantPk := 2 }] }

/-- The cache after resolving `a.com` and then `b.com` against
`c3Store`. -/
def c3CachePrimed : Cache :=
  [(CacheKey.domain "b.com", c3Tenant), (CacheKey.domain "a.com", c3Tenant)]

/-- C3 counterexample: after priming the cache by resolving the tenant's
canonical domain and its alias, deleting the tenant's `Site` row commits
while evicting neither domain entry — the `pre_delete` handler only
removes the instance-pk key — so resolution of both the canonical domain
`a.com` and the alias `b.com` still returns the deleted tenant. -/
theorem c3_stale_cache_counterexample :
    (getTenantByRequest c3Store emptyCache (hostReq "a.com")).2 =
      [(CacheKey.domain "a.com", c3Tenant)] ∧
    (getTenantByRequest c3Store [(CacheKey.domain "a.com", c3Tenant)]
      (hostReq "b.com")).2 = c3CachePrimed ∧
    deleteSiteOp c3Store c3CachePrimed 7 = .ok (emptyStore, c3CachePrimed) ∧
    (getTenantByRequest emptyStore c3CachePrimed (hostReq "a.com")).1 =
      .ok (.tenant c3Tenant) ∧
    (getTenantByRequest emptyStore c3CachePrimed (hostReq "b.com")).1 =
      .ok (.tenant c3Tenant) ∧
    c3Tenant ∉ emptyStore.tenants :=
  ⟨rfl, rfl, rfl, rfl, rfl, by decide⟩

/-- C3 amended: when a `Site` delete commits, the handler has evicted
exactly the cache entry keyed by the instance's pk — every domain-keyed
entry survives — and a resolution that misses the cache can only return a
tenant still present in the post-delete store, never the deleted one. -/
theorem c3_delete_eviction (db : Store) (cache : Cache) (sitePk : Nat)
    (db' : Store) (cache' : Cache)
    (hdel : deleteSiteOp db cache sitePk = .ok (db', cache')) :
    (∀ d, cacheLookup cache' (.domain d) = cacheLookup cache (.domain d)) ∧
    cacheLookup cache' (.pk sitePk) = none ∧
    (∀ (d : String) (t : Tenant), ':' ∉ d.data →
      cacheLookup cache (.domain d) = none →
      (getTenantByRequest db' cache' (hostReq d)).1 = .ok (.tenant t) →
      t ∈ db'.tenants ∧ t.site.pk ≠ sitePk) := by
  unfold deleteSiteOp at hdel
  cases hcl : clearTenantCache db cache (some sitePk) with
  | error e =>
    rw [hcl] at hdel
    cases hdel
  | ok cache1 =>
    rw [hcl] at hdel
    cases hdel
    have hcl2 : (match db.tenants.find? (fun t => t.pk = sitePk) with
        | none => (Except.ok (cacheDel cache (.pk sitePk)) : Except PyErr Cache)
        | some _ => .error .attributeError) = .ok cache' := hcl
    cases hfind : db.tenants.find? fun t => t.pk = sitePk with
    | none =>
      rw [hfind] at hcl2
      cases hcl2
      have hdome : ∀ d, cacheLookup (cacheDel cache (.pk sitePk)) (.domain d) =
          cacheLookup cache (.domain d) := by
        intro d
        exact cacheLookup_del_ne cache (.pk sitePk) (.domain d) (by simp)
      refine ⟨hdome, cacheLookup_del_self cache (.pk sitePk), ?_⟩
      intro d t hcolon hmiss hres
      unfold getTenantByRequest hostReq at hres
      simp only [if_neg hcolon] at hres
      rw [hdome d, hmiss] at hres
      cases hget : pyGet (tenantRows
          { tenants := db.tenants.filter fun tt => tt.site.pk ≠ sitePk,
            aliases := db.aliases.filter fun al =>
              (db.tenants.filter fun tt => tt.site.pk ≠ sitePk).any
                fun tt => tt.pk = al.tenantPk } d) with
      | ok t' =>
        rw [hget] at hres
        cases hres
        have hmem := tenantRows_subset (pyGet_ok_mem hget)
        refine ⟨hmem, ?_⟩
        have := (List.mem_filter.mp hmem).2
        simpa using this
      | error e =>
        rw [hget] at hres
        cases hres
    | some tt =>
      rw [hfind] at hcl2
      cases hcl2

/-- Witness for C3 amended at the concrete delete of `c3Tenant`'s site. -/
theorem c3_delete_eviction_witness :
    cacheLookup c3CachePrimed (.pk 7) = none ∧
    cacheLookup c3CachePrimed (.domain "a.com") =
      cacheLookup c3CachePrimed (.domain "a.com") :=
  ⟨(c3_delete_eviction c3Store c3CachePrimed 7 emptyStore c3CachePrimed
      rfl).2.1,
   (c3_delete_eviction c3Store c3CachePrimed 7 emptyStore c3CachePrimed
      rfl).1 "a.com"⟩

/-- The tenant of the C4 counterexample: canonical domain `a.com`,
preferred domain `b.com`, reached through the mixed-case alias `B.com`. -/
def c4Tenant : Tenant :=
  { pk := 1, site := { pk := 1, domain := "a.com", name := "A" },
    preferredDomain := some "b.com", isRootSite := false }

/-- Store with `c4Tenant` and its aliases `B.com` and `b.com`. -/
def c4Store : Store :=
  { tenants := [c4Tenant],
    aliases := [{ pk := 1, domain := "B.com", tenantPk := 1 },
                { pk := 2, domain := "b.com", tenantPk := 1 }] }

/-- A secure admin-path request arriving on the mixed-case alias. -/
def c4Req : Request :=
  { httpHost := some "B.com", path := "/admin/x", isSecure := true, GET := [] }

/-- C4 counterexample: the request matches by alias, targets an
administrative path, and the alias actually used (`B.com`) differs from
the tenant's `preferred_domain` (`b.com`) — yet no redirect is issued,
because the condition compares the lower-cased, port-stripped host
produced by `split_domain_port` (here `b.com`) with the preferred domain
and finds them equal. -/
theorem c4_alias_redirect_counterexample :
    matchSiteToRequest c4Store c4Req = .ok (.alias, c4Tenant) ∧
    c4Req.isSecure = true ∧
    List.isPrefixOf "/admin/".data c4Req.path.data = true ∧
    some "B.com" ≠ c4Tenant.preferredDomain ∧
    processRequest c4Store c4Req = .forward c4Tenant "/admin/x" :=
  ⟨rfl, rfl, rfl, by decide, by decide⟩

/-- C4 amended: for every resolved request targeting the administrative
path, if the transport is not encrypted, or the match kind was alias and
the lower-cased, port-stripped host (the `split_domain_port` result on
the host actually used) differs from the tenant's `preferred_domain`,
the middleware responds with a redirect to
`https://{public_domain}{original_path}` with the original query
parameters preserved url-encoded, where `public_domain` is
`preferred_domain` when non-empty and the canonical domain otherwise. -/
theorem c4_admin_redirect (db : Store) (req : Request) (mt : MatchType)
    (t : Tenant) (host : String) (hh : req.httpHost = some host)
    (hm : matchSiteToRequest db req = .ok (mt, t))
    (hpath : List.isPrefixOf "/admin/".data req.path.data = true)
    (hcond : req.isSecure = false ∨
      (mt = .alias ∧ t.preferredDomain ≠ some (splitDomainPort host).1)) :
    processRequest db req = .redirect ("https://" ++ publicDomain t ++
      req.path ++ (if req.GET = [] then "" else "?" ++ urlencodeSeq req.GET)) := by
  unfold processRequest
  simp only [hm, hh]
  rw [if_pos ⟨hpath, hcond⟩]

/-- Witness for C4 amended: an insecure admin request on the canonical
domain is redirected to the https preferred domain carrying its encoded
query string. -/
theorem c4_admin_redirect_witness :
    processRequest c4Store
      { httpHost := some "a.com", path := "/admin/", isSecure := false,
        GET := [("next", "/x y")] } =
      .redirect "https://b.com/admin/?next=%2Fx%20y" :=
  c4_admin_redirect c4Store
    { httpHost := some "a.com", path := "/admin/", isSecure := false,
      GET := [("next", "/x y")] }
    .domain c4Tenant "a.com" rfl rfl (by decide) (Or.inl rfl)

/-- C7 counterexample: the middleware resolver matches the canonical domain
and the alias table exactly (case-sensitively), so with `a.com` stored,
resolving the upper-cased host `A.COM` fails with `DoesNotExist` while
resolving `a.com` succeeds. -/
theorem c7_case_sensitivity_counterexample :
    matchSiteToRequest pairStore (hostReq "a.com") = .ok (.domain, tenantA) ∧
    matchSiteToRequest pairStore (hostReq "A.COM") = .error .doesNotExist :=
  ⟨rfl, rfl⟩

/-- C7 amended: resolution through `TenantManager._get_tenant_by_request`
is case-insensitive at the store level — two hosts with the same
lower-casing (in particular a host and its upper-cased form) produce the
same resolution result against every store, provided both miss the
case-sensitively keyed cache; the middleware's `match_site_to_request`, by
contrast, matches exactly. -/
theorem c7_manager_case_insensitive (db : Store) (cache : Cache)
    (h1 h2 : String) (hl : pyLower h1 = pyLower h2)
    (hc1 : ':' ∉ h1.data) (hc2 : ':' ∉ h2.data)
    (hm1 : cacheLookup cache (.domain h1) = none)
    (hm2 : cacheLookup cache (.domain h2) = none) :
    (getTenantByRequest db cache (hostReq h1)).1 =
      (getTenantByRequest db cache (hostReq h2)).1 := by
  unfold getTenantByRequest hostReq
  simp only [if_neg hc1, if_neg hc2, hm1, hm2, tenantRows_congr db hl]
  cases hg : pyGet (tenantRows db h2) with
  | ok t => simp only [hg]
  | error e => simp only [hg]

/-- Witness for C7 amended: `A.COM` and `a.com` resolve identically via
the manager against the concrete pair store on an empty cache. -/
theorem c7_manager_case_insensitive_witness :
    (getTenantByRequest pairStore emptyCache (hostReq "A.COM")).1 =
      (getTenantByRequest pairStore emptyCache (hostReq "a.com")).1 :=
  c7_manager_case_insensitive pairStore emptyCache "A.COM" "a.com"
    (by decide) (by decide) (by decide) rfl rfl

/-- C8: resolving `domain:port` is the same as resolving the bare domain.
For the middleware resolver this holds for every host of that shape (the
port is stripped before any lookup).  For the manager resolver it holds
for every domain built from the validator's character set (ASCII
alphanumerics, dots, hyphens; nonempty; no trailing dot) and every
nonempty numeric port, whenever both forms miss the cache:
`split_domain_port` lower-cases the host, so the store query — being
`__iexact` — returns the same result. -/
theorem c8_port_stripping :
    (∀ (db : Store) (d p path : String) (sec : Bool)
        (get : List (String × String)), ':' ∉ d.data → ':' ∉ p.data →
      matchSiteToRequest db
        { httpHost := some (d ++ ":" ++ p), path := path, isSecure := sec,
          GET := get } =
      matchSiteToRequest db
        { httpHost := some d, path := path, isSecure := sec, GET := get }) ∧
    (∀ (db : Store) (cache : Cache) (d p : String), d.data ≠ [] →
      d.data.all specValidDomainChar = true → d.data.getLast? ≠ some '.' →
      p.data ≠ [] → p.data.all isDigitAscii = true →
      cacheLookup cache (.domain (pyLower d)) = none →
      cacheLookup cache (.domain d) = none →
      (getTenantByRequest db cache (hostReq (d ++ ":" ++ p))).1 =
        (getTenantByRequest db cache (hostReq d)).1) := by
  constructor
  · intro db d p path sec get hd hp
    unfold matchSiteToRequest
    simp only [stripPort_port hd hp, stripPort_no_colon hd]
  · intro db cache d p hne hch hlast hpne hpd hm1 hm2
    have hspec : ∀ c ∈ d.data, specValidDomainChar c = true :=
      fun c hc => List.all_eq_true.mp hch c hc
    have hdcolon : ':' ∉ d.data :=
      fun hm => specChar_ne_colon (hspec _ hm) rfl
    have hcolon1 : ':' ∈ (d ++ ":" ++ p).data := by
      rw [data_append_colon]
      simp
    unfold getTenantByRequest hostReq
    simp only [if_pos hcolon1, if_neg hdcolon,
      splitDomainPort_valid hne hch hlast hpne hpd, hm1, hm2,
      tenantRows_congr db (pyLower_idem d)]
    cases hg : pyGet (tenantRows db d) with
    | ok t => simp only [hg]
    | error e => simp only [hg]

/-- Witness for C8: `a.com:8443` resolves like `a.com` through both the
middleware and the manager on the concrete pair store. -/
theorem c8_port_stripping_witness :
    matchSiteToRequest pairStore
      { httpHost := some ("a.com" ++ ":" ++ "8443"), path := "/",
        isSecure := true, GET := [] } =
    matchSiteToRequest pairStore
      { httpHost := some "a.com", path := "/", isSecure := true, GET := [] } ∧
    (getTenantByRequest pairStore emptyCache
        (hostReq ("a.com" ++ ":" ++ "8443"))).1 =
      (getTenantByRequest pairStore emptyCache (hostReq "a.com")).1 :=
  ⟨c8_port_stripping.1 pairStore "a.com" "8443" "/" true []
      (by decide) (by decide),
   c8_port_stripping.2 pairStore emptyCache "a.com" "8443"
      (by decide) (by decide) (by decide) (by decide) (by decide) rfl rfl⟩

/-- An auth store with no tenant groups and no membership rows. -/
def emptyAuthDb : AuthDb :=
  { tenantGroups := [], memberships := [], groupPerms := [], allPerms := [] }

/-- A principal with both global flags set, not a super admin, and no
memberships anywhere. -/
def lonelyUser : UserRec :=
  { pk := 1, isActiveFlag := true, isStaffFlag := true, isSuperuser := false,
    isAnonymous := false, groups := [], userPerms := [] }

/-- A membership row making `lonelyUser` active but not staff on tenant 5. -/
def membershipDb : AuthDb :=
  { tenantGroups := [], groupPerms := [], allPerms := [],
    memberships := [{ tenantPk := 5, userPk := 1, isActive := true,
                      isStaff := false }] }

/-- C9 counterexample: `lonelyUser` has both global flags set and holds a
membership row (with `is_active = true`) for the current tenant 5, yet is
no super admin — the claim says its effective `is_active` is then true —
but the `is_active`/`is_staff` properties raise
`TenantMembership.DoesNotExist` instead: `Tenant.objects.get_current()`
called without a request always returns `None` (the `else` branch of
`get_current` has no `return`), so the membership lookup runs with
`tenant=None` and never sees tenant 5.  The same exception refutes the
claim's "in particular" clause: a principal without a membership row is
not reported inactive either; the property produces no boolean at all. -/
theorem c9_current_tenant_counterexample :
    membershipRows membershipDb (some 5) lonelyUser =
      [{ tenantPk := 5, userPk := 1, isActive := true, isStaff := false }] ∧
    lonelyUser.isActiveFlag = true ∧
    isSuperAdmin membershipDb lonelyUser = false ∧
    effIsActive membershipDb lonelyUser = .error .doesNotExist ∧
    effIsStaff membershipDb lonelyUser = .error .doesNotExist ∧
    (∀ b : Bool, effIsActive membershipDb lonelyUser ≠ .ok b) ∧
    (∀ b : Bool, effIsStaff membershipDb lonelyUser ≠ .ok b) :=
  ⟨rfl, rfl, rfl, rfl, rfl, by decide, by decide⟩

/-- C9 amended: the claimed per-tenant semantics lives only in the
explicit-tenant methods — given the unique-together constraint and a
defined lookup, `is_active_for_tenant(t)` (resp. `is_staff_for_tenant(t)`)
is true exactly when the principal is a super admin with the global flag
or the membership row for `t` carries the per-tenant flag.  The
`is_active`/`is_staff` properties never consult the actual current
tenant: `get_current()` on their no-argument path always returns `None`,
so the property yields false when the global flag is false, true for a
super admin with the flag, and raises `TenantMembership.DoesNotExist`
for every other principal with the flag set — regardless of what
membership rows exist. -/
theorem c9_tenant_relative_flags :
    (∀ (adb : AuthDb) (u : UserRec) (t : Nat),
      (membershipRows adb (some t) u).length ≤ 1 →
      ((isSuperAdmin adb u = true ∧ u.isActiveFlag = true) ∨
        membershipRows adb (some t) u ≠ []) →
      (isActiveForTenant adb u (some t) = .ok true ↔
        ((isSuperAdmin adb u = true ∧ u.isActiveFlag = true) ∨
          ∃ m ∈ membershipRows adb (some t) u, m.isActive = true))) ∧
    (∀ (adb : AuthDb) (u : UserRec) (t : Nat),
      (membershipRows adb (some t) u).length ≤ 1 →
      ((isSuperAdmin adb u = true ∧ u.isStaffFlag = true) ∨
        membershipRows adb (some t) u ≠ []) →
      (isStaffForTenant adb u (some t) = .ok true ↔
        ((isSuperAdmin adb u = true ∧ u.isStaffFlag = true) ∨
          ∃ m ∈ membershipRows adb (some t) u, m.isStaff = true))) ∧
    (∀ (adb : AuthDb) (u : UserRec),
      (u.isActiveFlag = false → effIsActive adb u = .ok false) ∧
      (u.isActiveFlag = true → isSuperAdmin adb u = true →
        effIsActive adb u = .ok true) ∧
      (u.isActiveFlag = true → isSuperAdmin adb u = false →
        effIsActive adb u = .error .doesNotExist)) ∧
    (∀ (adb : AuthDb) (u : UserRec),
      (u.isStaffFlag = false → effIsStaff adb u = .ok false) ∧
      (u.isStaffFlag = true → isSuperAdmin adb u = true →
        effIsStaff adb u = .ok true) ∧
      (u.isStaffFlag = true → isSuperAdmin adb u = false →
        effIsStaff adb u = .error .doesNotExist)) := by
  refine ⟨?_, ?_, ?_, ?_⟩
  · intro adb u t hmem hdef
    by_cases hsa : isSuperAdmin adb u = true ∧ u.isActiveFlag = true
    · unfold isActiveForTenant
      rw [if_pos hsa]
      simp [hsa]
    · have hrows : membershipRows adb (some t) u ≠ [] := by
        rcases hdef with h | h
        · exact absurd h hsa
        · exact h
      obtain ⟨m, rest, hrow⟩ : ∃ m rest,
          membershipRows adb (some t) u = m :: rest := by
        cases hr : membershipRows adb (some t) u with
        | nil => exact absurd hr hrows
        | cons m rest => exact ⟨m, rest, rfl⟩
      have hrest : rest = [] := by
        rw [hrow] at hmem
        simp only [List.length_cons] at hmem
        exact List.length_eq_zero.mp (by omega)
      unfold isActiveForTenant
      rw [if_neg hsa]
      rw [show resolveTenantArg (some t) getCurrentNoRequest = some t from rfl]
      rw [hrow, hrest]
      simp [pyGet, hsa, Except.map]
  · intro adb u t hmem hdef
    by_cases hsa : isSuperAdmin adb u = true ∧ u.isStaffFlag = true
    · unfold isStaffForTenant
      rw [if_pos hsa]
      simp [hsa]
    · have hrows : membershipRows adb (some t) u ≠ [] := by
        rcases hdef with h | h
        · exact absurd h hsa
        · exact h
      obtain ⟨m, rest, hrow⟩ : ∃ m rest,
          membershipRows adb (some t) u = m :: rest := by
        cases hr : membershipRows adb (some t) u with
        | nil => exact absurd hr hrows
        | cons m rest => exact ⟨m, rest, rfl⟩
      have hrest : rest = [] := by
        rw [hrow] at hmem
        simp only [List.length_cons] at hmem
        exact List.length_eq_zero.mp (by omega)
      unfold isStaffForTenant
      rw [if_neg hsa]
      rw [show resolveTenantArg (some t) getCurrentNoRequest = some t from rfl]
      rw [hrow, hrest]
      simp [pyGet, hsa, Except.map]
  · intro adb u
    refine ⟨fun hf => ?_, fun hf hsa => ?_, fun hf hsa => ?_⟩
    · unfold effIsActive
      rw [if_pos hf]
    · unfold effIsActive isActiveForTenant
      rw [if_neg (by simp [hf])]
      rw [if_pos ⟨hsa, hf⟩]
    · unfold effIsActive isActiveForTenant
      rw [if_neg (by simp [hf])]
      rw [if_neg (by simp [hsa])]
      rw [show resolveTenantArg none getCurrentNoRequest = none from rfl,
        membershipRows_none]
      rfl
  · intro adb u
    refine ⟨fun hf => ?_, fun hf hsa => ?_, fun hf hsa => ?_⟩
    · unfold effIsStaff
      rw [if_pos hf]
    · unfold effIsStaff isStaffForTenant
      rw [if_neg (by simp [hf])]
      rw [if_pos ⟨hsa, hf⟩]
    · unfold effIsStaff isStaffForTenant
      rw [if_neg (by simp [hf])]
      rw [if_neg (by simp [hsa])]
      rw [show resolveTenantArg none getCurrentNoRequest = none from rfl,
        membershipRows_none]
      rfl

/-- Witness for C9 amended: the explicit-tenant equivalence applied at the
concrete membership row, and the property's exception at a concrete
membership-less principal. -/
theorem c9_tenant_relative_flags_witness :
    (isActiveForTenant membershipDb lonelyUser (some 5) = .ok true ↔
      ((isSuperAdmin membershipDb lonelyUser = true ∧
        lonelyUser.isActiveFlag = true) ∨
       ∃ m ∈ membershipRows membershipDb (some 5) lonelyUser,
         m.isActive = true)) ∧
    effIsActive emptyAuthDb lonelyUser = .error .doesNotExist :=
  ⟨c9_tenant_relative_flags.1 membershipDb lonelyUser 5 (by decide)
      (Or.inr (by decide)),
   (c9_tenant_relative_flags.2.2.1 emptyAuthDb lonelyUser).2.2 rfl rfl⟩

/-- C10: an inactive or anonymous principal receives the empty permission
set from the backend's `_get_permissions` and `get_all_permissions`, for
every permission lookup — in particular those supplying a concrete
object — regardless of the principal's group or tenant-group
memberships. -/
theorem c10_inactive_empty_permissions (adb : AuthDb) (cur : Option Nat)
    (u : UserRec) (obj : Option Nat)
    (h : u.isAnonymous = true ∨ evalIsActive adb cur u = .ok false) :
    getAllPermissions adb cur u obj = .ok [] ∧
    ∀ isGroup : Bool, getPermissionsFrom adb cur u obj isGroup = .ok [] := by
  have hev : evalIsActive adb cur u = .ok false := by
    rcases h with h | h
    · unfold evalIsActive
      rw [if_pos h]
    · exact h
  constructor
  · unfold getAllPermissions
    rw [hev]
    simp
  · intro ig
    unfold getPermissionsFrom
    rw [hev]
    simp

/-- Witness for C10: an anonymous principal with an object supplied gets
the empty set from both entry points. -/
theorem c10_inactive_empty_permissions_witness :
    getAllPermissions emptyAuthDb (some 5)
      { pk := 9, isActiveFlag := true, isStaffFlag := false,
        isSuperuser := true, isAnonymous := true, groups := [],
        userPerms := ["auth.add_user"] } (some 0) = .ok [] ∧
    ∀ isGroup : Bool, getPermissionsFrom emptyAuthDb (some 5)
      { pk := 9, isActiveFlag := true, isStaffFlag := false,
        isSuperuser := true, isAnonymous := true, groups := [],
        userPerms := ["auth.add_user"] } (some 0) isGroup = .ok [] :=
  c10_inactive_empty_permissions emptyAuthDb (some 5)
    { pk := 9, isActiveFlag := true, isStaffFlag := false,
      isSuperuser := true, isAnonymous := true, groups := [],
      userPerms := ["auth.add_user"] } (some 0) (Or.inl rfl)

end Multitenancy
